import Mathlib

/-!
Verification of the form-input widget module `hes-editor/src/inputs.rs`.

The module is a set of Leptos UI components.  Each component is embedded as a
pure state machine: the reactive signals of a component instance become fields
of a Lean structure, and each DOM event handler becomes a function from state
(plus the event payload) to state.  Calls to the outer binding's setter
(`write.set(..)` in the source) are recorded in an explicit `writes` /
`outerWrites` log so that claims about how often and with what value the outer
binding is updated can be stated.

Numeric scalar types (`f32`, generic `T: Num + FromStr`) are only ever stored
and moved by this module, never computed with, so components are either
parameterised over the value type or use `Rat` as an exact stand-in for `f32`.
Parsing (`str::parse::<T>`) is likewise a parameter `parse : String → Option T`
(`Ok` = `some`, `Err` = `none`).
-/

/-! ## NumericInput (inputs.rs lines 46-84)

State of one `NumericInput<T>` instance:
`bound` is the value held by the outer binding (last value passed to
`write.set`, initially the value read at mount), `writes` is the log of
`write.set` invocations, and `maybeVal` is the local `maybe_val` rw-signal
holding the last parse result (`some v` = `Ok(v)`, `none` = `Err`).  The
inline error `<div class="input-error">` is shown exactly when
`maybe_val.is_err()`. -/

structure NumericState (T : Type) where
  bound : T
  writes : List T
  maybeVal : Option T
  deriving Repr, DecidableEq

/-- Mount of `NumericInput`: `maybe_val` is created as `Ok(read.get_untracked())`
(line 62); no write to the outer binding happens at mount. -/
def numericInputMount {T : Type} (init : T) : NumericState T :=
  { bound := init, writes := [], maybeVal := some init }

/-- The `on:input` handler (lines 70-77): parse the field text; on `Ok(value)`
call `write.set(*value)`; in both cases store the parse result in `maybe_val`. -/
def numericInputOnInput {T : Type} (parse : String → Option T)
    (st : NumericState T) (s : String) : NumericState T :=
  match parse s with
  | some v => { bound := v, writes := st.writes ++ [v], maybeVal := some v }
  | none => { bound := st.bound, writes := st.writes, maybeVal := none }

/-- The `<Show when=.. maybe_val.is_err()>` condition (line 78): the inline
"Must be a number." message is rendered iff the last parse failed. -/
def numericShowsError {T : Type} (st : NumericState T) : Bool :=
  st.maybeVal.isNone

/-- Sample concrete parser used to instantiate the generic components in the
witness theorems: decimal natural-number parsing (a stand-in for one admissible
`T: FromStr`). -/
def sampleParseNat (s : String) : Option Nat :=
  match s.data with
  | [] => none
  | cs =>
    cs.foldl
      (fun acc c =>
        acc.bind fun n =>
          if 48 ≤ c.toNat ∧ c.toNat ≤ 57 then some (n * 10 + (c.toNat - 48))
          else none)
      (some 0)

/-- Claim C1: for every numeric string `s` that the parser accepts, entering
`s` into `NumericInput` writes `parse s` through the binding (the bound value
becomes `parse s`, via exactly one setter call) and the local parse-result
state records success, so no error message is shown. -/
theorem numericInput_accept {T : Type} (parse : String → Option T)
    (st : NumericState T) (s : String) (v : T) (h : parse s = some v) :
    (numericInputOnInput parse st s).bound = v ∧
    (numericInputOnInput parse st s).writes = st.writes ++ [v] ∧
    numericShowsError (numericInputOnInput parse st s) = false := by
  simp [numericInputOnInput, numericShowsError, h]

/-- Concrete instance of `numericInput_accept`: parsing "42" as a natural
number succeeds and drives the bound value to 42 with no error shown. -/
theorem numericInput_accept_witness :
    sampleParseNat "42" = some 42 ∧
    ((numericInputOnInput sampleParseNat (numericInputMount 0) "42").bound = 42 ∧
     (numericInputOnInput sampleParseNat (numericInputMount 0) "42").writes = [] ++ [42] ∧
     numericShowsError (numericInputOnInput sampleParseNat (numericInputMount 0) "42") = false) :=
  ⟨by rfl, numericInput_accept sampleParseNat (numericInputMount 0) "42" 42 (by rfl)⟩

/-- Claim C2: for every string `s` the parser rejects, entering `s` does not
invoke the binding's setter — the bound value and write log are unchanged —
and the local parse-result state records failure, so the error is shown. -/
theorem numericInput_reject {T : Type} (parse : String → Option T)
    (st : NumericState T) (s : String) (h : parse s = none) :
    (numericInputOnInput parse st s).bound = st.bound ∧
    (numericInputOnInput parse st s).writes = st.writes ∧
    numericShowsError (numericInputOnInput parse st s) = true := by
  simp [numericInputOnInput, numericShowsError, h]

/-- Concrete instance of `numericInput_reject`: entering "abc" into a
`NumericInput` mounted at 7 leaves the bound value at 7, performs no setter
call, and shows the error. -/
theorem numericInput_reject_witness :
    sampleParseNat "abc" = none ∧
    ((numericInputOnInput sampleParseNat (numericInputMount 7) "abc").bound =
        (numericInputMount 7).bound ∧
     (numericInputOnInput sampleParseNat (numericInputMount 7) "abc").writes =
        (numericInputMount 7).writes ∧
     numericShowsError (numericInputOnInput sampleParseNat (numericInputMount 7) "abc") = true) :=
  ⟨by rfl, numericInput_reject sampleParseNat (numericInputMount 7) "abc" (by rfl)⟩

/-! ## OptionalNumericInput (inputs.rs lines 86-135)

The component destructures its outer binding as `(read, write)` (line 102) and
creates two local rw-signals: `maybe_val = read.get_untracked()` (line 103) and
the side cache `value = read.get_untracked().unwrap_or_default()` (lines
104-106).  The `ToggleInput` and the inner `NumericInput` are wired to
`create_slice`s of the LOCAL `maybe_val` signal (lines 113, 126); the outer
`write` setter is never invoked anywhere in the component body, so the
`outerWrites` log can only stay empty. -/

structure OptionalNumericState (T : Type) where
  maybeVal : Option T
  value : T
  outerWrites : List (Option T)
  deriving Repr, DecidableEq

/-- Mount (lines 102-106): seed `maybe_val` and the `value` cache from the
outer binding; nothing is written back. -/
def optionalNumericMount {T : Type} (default : T) (init : Option T) :
    OptionalNumericState T :=
  { maybeVal := init, value := init.getD default, outerWrites := [] }

/-- The toggle slice setter (lines 115-121): on check set `maybe_val` to
`Some(value.get())`, on uncheck set it to `None`.  Only the local signal is
touched. -/
def optionalNumericToggle {T : Type} (st : OptionalNumericState T)
    (checked : Bool) : OptionalNumericState T :=
  if checked then { st with maybeVal := some st.value }
  else { st with maybeVal := none }

/-- The inner numeric slice setter (lines 128-131): `opt.insert(val)` makes the
local option `Some(val)` and `value.set(val)` refreshes the cache. -/
def optionalNumericSet {T : Type} (st : OptionalNumericState T) (v : T) :
    OptionalNumericState T :=
  { st with maybeVal := some v, value := v }

/-- Claim C4 (counter-evidence): at the concrete failing input — the component
mounted on bound value `Some 5`, toggle switched off and then on again — the
outer setter invocation log stays empty: `None` and `Some v` are stored only in
the local `maybe_val` signal and are never written through the outer binding,
because `write` is unused in the component body (lines 102-134). -/
theorem optionalNumeric_never_writes_outer :
    (optionalNumericToggle (optionalNumericMount 0 (some 5)) false).outerWrites = []
      ∧
    (optionalNumericToggle
      (optionalNumericToggle (optionalNumericMount 0 (some 5)) false) true).outerWrites = [] := by
  decide

/-- Claim C5: for any value `v` entered into the numeric field while the toggle
is on, toggling off and then back on restores `v` (kept in the `value` side
cache) as the present value, not the type's default. -/
theorem optionalNumeric_cache_restores {T : Type} (st : OptionalNumericState T)
    (v : T) :
    (optionalNumericToggle
      (optionalNumericToggle (optionalNumericSet st v) false) true).maybeVal = some v := by
  simp [optionalNumericToggle, optionalNumericSet]

/-! ## The mirror-signal pattern (inputs.rs lines 137-356, 478-529)

Every composite map input and `ImageInput` follow one pattern: a local
rw-signal is seeded with `read.get_untracked()` at mount, and
`create_effect(move |_| write.set(local.get()))` pushes the local value through
the outer binding — once immediately when the effect is created at mount, and
once more each time the local signal changes.  `localVal` is the local signal,
`outer` the value currently held by the outer binding, `outerWrites` the log of
`write.set` invocations. -/

structure CompositeState (M : Type) where
  localVal : M
  outer : M
  outerWrites : List M
  deriving Repr, DecidableEq

/-- Mount: seed the local signal from the binding and run the sync effect once
with that value (e.g. lines 184-189 for `ResourceMapInput`). -/
def compositeMount {M : Type} (init : M) : CompositeState M :=
  { localVal := init, outer := init, outerWrites := [init] }

/-- One edit of the local signal through a slice setter `f`, followed by the
one re-run of the sync effect it triggers. -/
def compositeEdit {M : Type} (f : M → M) (st : CompositeState M) :
    CompositeState M :=
  { localVal := f st.localVal
    outer := f st.localVal
    outerWrites := st.outerWrites ++ [f st.localVal] }

/-- Modelled from the spec: `hes_engine::kinds::ResourceMap` is external to
`src/`; its four `f32` fields are taken from the `slice!(map.land)` etc.
projections at inputs.rs lines 196-215 and the spec §4.3 field catalog, with
`f32` values modelled exactly as `Rat` (this module only stores and moves
them). -/
structure ResourceMap where
  land : Rat
  water : Rat
  electricity : Rat
  fuel : Rat
  deriving Repr, DecidableEq

inductive ResourceField where
  | land | water | electricity | fuel
  deriving Repr, DecidableEq

/-- The write half of the `slice!` lens for each `ResourceMapInput` field. -/
def setResource : ResourceField → Rat → ResourceMap → ResourceMap
  | .land, v, m => { m with land := v }
  | .water, v, m => { m with water := v }
  | .electricity, v, m => { m with electricity := v }
  | .fuel, v, m => { m with fuel := v }

/-- The read half of the `slice!` lens for each `ResourceMapInput` field. -/
def getResource : ResourceField → ResourceMap → Rat
  | .land, m => m.land
  | .water, m => m.water
  | .electricity, m => m.electricity
  | .fuel, m => m.fuel

/-- Modelled from the spec: `hes_engine::kinds::ByproductMap` is external to
`src/`; fields from inputs.rs lines 240-258 and spec §4.3. -/
structure ByproductMap where
  co2 : Rat
  ch4 : Rat
  n2o : Rat
  biodiversity : Rat
  deriving Repr, DecidableEq

inductive ByproductField where
  | co2 | ch4 | n2o | biodiversity
  deriving Repr, DecidableEq

def setByproduct : ByproductField → Rat → ByproductMap → ByproductMap
  | .co2, v, m => { m with co2 := v }
  | .ch4, v, m => { m with ch4 := v }
  | .n2o, v, m => { m with n2o := v }
  | .biodiversity, v, m => { m with biodiversity := v }

def getByproduct : ByproductField → ByproductMap → Rat
  | .co2, m => m.co2
  | .ch4, m => m.ch4
  | .n2o, m => m.n2o
  | .biodiversity, m => m.biodiversity

/-- Modelled from the spec: `hes_engine::kinds::OutputMap` is external to
`src/`; fields from inputs.rs lines 284-302 and spec §4.3. -/
structure OutputMap where
  fuel : Rat
  electricity : Rat
  plant_calories : Rat
  animal_calories : Rat
  deriving Repr, DecidableEq

inductive OutputField where
  | fuel | electricity | plant_calories | animal_calories
  deriving Repr, DecidableEq

def setOutput : OutputField → Rat → OutputMap → OutputMap
  | .fuel, v, m => { m with fuel := v }
  | .electricity, v, m => { m with electricity := v }
  | .plant_calories, v, m => { m with plant_calories := v }
  | .animal_calories, v, m => { m with animal_calories := v }

def getOutput : OutputField → OutputMap → Rat
  | .fuel, m => m.fuel
  | .electricity, m => m.electricity
  | .plant_calories, m => m.plant_calories
  | .animal_calories, m => m.animal_calories

/-- Modelled from the spec: `hes_engine::kinds::FeedstockMap` is external to
`src/`; fields from inputs.rs lines 328-352 and spec §4.3. -/
structure FeedstockMap where
  coal : Rat
  oil : Rat
  thorium : Rat
  uranium : Rat
  lithium : Rat
  deriving Repr, DecidableEq

inductive FeedstockField where
  | coal | oil | thorium | uranium | lithium
  deriving Repr, DecidableEq

def setFeedstock : FeedstockField → Rat → FeedstockMap → FeedstockMap
  | .coal, v, m => { m with coal := v }
  | .oil, v, m => { m with oil := v }
  | .thorium, v, m => { m with thorium := v }
  | .uranium, v, m => { m with uranium := v }
  | .lithium, v, m => { m with lithium := v }

def getFeedstock : FeedstockField → FeedstockMap → Rat
  | .coal, m => m.coal
  | .oil, m => m.oil
  | .thorium, m => m.thorium
  | .uranium, m => m.uranium
  | .lithium, m => m.lithium

/-- Mount of `ResourceMapInput` (lines 183-189). -/
def resourceMapInputMount (init : ResourceMap) : CompositeState ResourceMap :=
  compositeMount init

/-- Mount of `ByproductMapInput` (lines 227-233). -/
def byproductMapInputMount (init : ByproductMap) : CompositeState ByproductMap :=
  compositeMount init

/-- Mount of `OutputMapInput` (lines 271-277). -/
def outputMapInputMount (init : OutputMap) : CompositeState OutputMap :=
  compositeMount init

/-- Mount of `FeedstockMapInput` (lines 315-321). -/
def feedstockMapInputMount (init : FeedstockMap) : CompositeState FeedstockMap :=
  compositeMount init

/-- Mount of `MultiNumericInput<N>` (lines 144-150); the `[f32; N]` array is
modelled as a `List Rat` of length `N`, edited by `arr[i] = val` =
`List.set`. -/
def multiNumericInputMount (init : List Rat) : CompositeState (List Rat) :=
  compositeMount init

/-- Claim C3: for every composite map input, editing a single field `F` of the
bound record to value `v` makes the outer binding hold a record equal to the
pre-edit record at every other field and to `v` at `F`, and this updated record
is pushed through the outer setter exactly once per field edit — stated for
`ResourceMapInput`, `ByproductMapInput`, `OutputMapInput`, `FeedstockMapInput`
and the generic `MultiNumericInput`. -/
theorem compositeMap_edit_frame :
    (∀ (st : CompositeState ResourceMap) (F : ResourceField) (v : Rat),
      getResource F (compositeEdit (setResource F v) st).outer = v ∧
      (∀ G, G ≠ F → getResource G (compositeEdit (setResource F v) st).outer
          = getResource G st.localVal) ∧
      (compositeEdit (setResource F v) st).outerWrites
          = st.outerWrites ++ [setResource F v st.localVal]) ∧
    (∀ (st : CompositeState ByproductMap) (F : ByproductField) (v : Rat),
      getByproduct F (compositeEdit (setByproduct F v) st).outer = v ∧
      (∀ G, G ≠ F → getByproduct G (compositeEdit (setByproduct F v) st).outer
          = getByproduct G st.localVal) ∧
      (compositeEdit (setByproduct F v) st).outerWrites
          = st.outerWrites ++ [setByproduct F v st.localVal]) ∧
    (∀ (st : CompositeState OutputMap) (F : OutputField) (v : Rat),
      getOutput F (compositeEdit (setOutput F v) st).outer = v ∧
      (∀ G, G ≠ F → getOutput G (compositeEdit (setOutput F v) st).outer
          = getOutput G st.localVal) ∧
      (compositeEdit (setOutput F v) st).outerWrites
          = st.outerWrites ++ [setOutput F v st.localVal]) ∧
    (∀ (st : CompositeState FeedstockMap) (F : FeedstockField) (v : Rat),
      getFeedstock F (compositeEdit (setFeedstock F v) st).outer = v ∧
      (∀ G, G ≠ F → getFeedstock G (compositeEdit (setFeedstock F v) st).outer
          = getFeedstock G st.localVal) ∧
      (compositeEdit (setFeedstock F v) st).outerWrites
          = st.outerWrites ++ [setFeedstock F v st.localVal]) ∧
    (∀ (st : CompositeState (List Rat)) (i : Nat) (v : Rat),
      i < st.localVal.length →
      ((compositeEdit (fun l => l.set i v) st).outer)[i]? = some v ∧
      (∀ j, j ≠ i → ((compositeEdit (fun l => l.set i v) st).outer)[j]?
          = (st.localVal)[j]?) ∧
      (compositeEdit (fun l => l.set i v) st).outerWrites
          = st.outerWrites ++ [st.localVal.set i v]) := by
  refine ⟨?_, ?_, ?_, ?_, ?_⟩
  · intro st F v
    refine ⟨?_, ?_, rfl⟩
    · cases F <;> simp [compositeEdit, setResource, getResource]
    · intro G hG
      cases F <;> cases G <;>
        simp_all [compositeEdit, setResource, getResource]
  · intro st F v
    refine ⟨?_, ?_, rfl⟩
    · cases F <;> simp [compositeEdit, setByproduct, getByproduct]
    · intro G hG
      cases F <;> cases G <;>
        simp_all [compositeEdit, setByproduct, getByproduct]
  · intro st F v
    refine ⟨?_, ?_, rfl⟩
    · cases F <;> simp [compositeEdit, setOutput, getOutput]
    · intro G hG
      cases F <;> cases G <;>
        simp_all [compositeEdit, setOutput, getOutput]
  · intro st F v
    refine ⟨?_, ?_, rfl⟩
    · cases F <;> simp [compositeEdit, setFeedstock, getFeedstock]
    · intro G hG
      cases F <;> cases G <;>
        simp_all [compositeEdit, setFeedstock, getFeedstock]
  · intro st i v h
    refine ⟨?_, ?_, rfl⟩
    · simp [compositeEdit, List.getElem?_set_eq_of_lt _ h]
    · intro j hj
      simp [compositeEdit, List.getElem?_set_ne (Ne.symm hj)]

/-- End-to-end instance of `compositeMap_edit_frame`: a `ResourceMapInput`
mounted on the all-zero record, after editing the Water field to 150, leaves
the outer binding at (land 0, water 150, electricity 0, fuel 0), reached by
exactly one post-mount setter call. -/
theorem compositeMap_edit_frame_witness :
    getResource ResourceField.water
      (compositeEdit (setResource ResourceField.water 150)
        (resourceMapInputMount ⟨0, 0, 0, 0⟩)).outer = 150 ∧
    (compositeEdit (setResource ResourceField.water 150)
      (resourceMapInputMount ⟨0, 0, 0, 0⟩)).outer = ⟨0, 150, 0, 0⟩ ∧
    (compositeEdit (setResource ResourceField.water 150)
      (resourceMapInputMount ⟨0, 0, 0, 0⟩)).outerWrites
        = [⟨0, 0, 0, 0⟩, ⟨0, 150, 0, 0⟩] :=
  ⟨(compositeMap_edit_frame.1 (resourceMapInputMount ⟨0, 0, 0, 0⟩)
      ResourceField.water 150).1,
   by decide,
   by decide⟩

/-! ## Base64 (the `BASE64_STANDARD.encode` call at inputs.rs line 499)

Standard-alphabet base64 with `=` padding, over byte values (`Nat < 256`).
`b64Decode` is the reference decoder used to state that the data-URI payload
decodes back to the original bytes. -/

/-- Character of the standard base64 alphabet at index `n < 64`. -/
def b64Char (n : Nat) : Char :=
  if n < 26 then Char.ofNat (65 + n)
  else if n < 52 then Char.ofNat (97 + (n - 26))
  else if n < 62 then Char.ofNat (48 + (n - 52))
  else if n = 62 then '+'
  else '/'

/-- Index of a character in the standard base64 alphabet. -/
def b64Idx (c : Char) : Option Nat :=
  if 65 ≤ c.toNat ∧ c.toNat ≤ 90 then some (c.toNat - 65)
  else if 97 ≤ c.toNat ∧ c.toNat ≤ 122 then some (c.toNat - 97 + 26)
  else if 48 ≤ c.toNat ∧ c.toNat ≤ 57 then some (c.toNat - 48 + 52)
  else if c.toNat = 43 then some 62
  else if c.toNat = 47 then some 63
  else none

/-- Standard base64 encoding of a byte sequence, with `=` padding, as produced
by Rust's `BASE64_STANDARD.encode`. -/
def b64Encode : List Nat → List Char
  | [] => []
  | [a] => [b64Char (a / 4), b64Char (a % 4 * 16), '=', '=']
  | [a, b] =>
    [b64Char (a / 4), b64Char (a % 4 * 16 + b / 16), b64Char (b % 16 * 4), '=']
  | a :: b :: c :: rest =>
    b64Char (a / 4) :: b64Char (a % 4 * 16 + b / 16) ::
      b64Char (b % 16 * 4 + c / 64) :: b64Char (c % 64) :: b64Encode rest

/-- Decoding of a final base64 quartet (handles the `=`-padded forms). -/
def b64DecodeLast (p q r s : Char) : Option (List Nat) :=
  match b64Idx p, b64Idx q with
  | some x, some y =>
    if r = '=' ∧ s = '=' then some [x * 4 + y / 16]
    else if s = '=' then
      match b64Idx r with
      | some z => some [x * 4 + y / 16, y % 16 * 16 + z / 4]
      | none => none
    else
      match b64Idx r, b64Idx s with
      | some z, some w =>
        some [x * 4 + y / 16, y % 16 * 16 + z / 4, z % 4 * 64 + w]
      | _, _ => none
  | _, _ => none

/-- Standard base64 decoding: quartets of characters to bytes, with the last
quartet allowed to carry padding. -/
def b64Decode : List Char → Option (List Nat)
  | [] => some []
  | p :: q :: r :: s :: rest =>
    if rest.isEmpty then b64DecodeLast p q r s
    else
      match b64Idx p, b64Idx q, b64Idx r, b64Idx s, b64Decode rest with
      | some x, some y, some z, some w, some t =>
        some ((x * 4 + y / 16) :: (y % 16 * 16 + z / 4) :: ((z % 4 * 64 + w) :: t))
      | _, _, _, _, _ => none
  | _ => none

theorem b64Idx_b64Char_fin : ∀ n : Fin 64, b64Idx (b64Char n.val) = some n.val := by
  decide

theorem b64Idx_b64Char (n : Nat) (h : n < 64) : b64Idx (b64Char n) = some n :=
  b64Idx_b64Char_fin ⟨n, h⟩

theorem b64Char_ne_pad_fin : ∀ n : Fin 64, b64Char n.val ≠ '=' := by
  decide

theorem b64Char_ne_pad (n : Nat) (h : n < 64) : b64Char n ≠ '=' :=
  b64Char_ne_pad_fin ⟨n, h⟩

theorem b64Encode_cons_isEmpty (x : Nat) (xs : List Nat) :
    (b64Encode (x :: xs)).isEmpty = false := by
  match xs with
  | [] => rfl
  | [y] => rfl
  | y :: z :: t => rfl

/-- Round-trip: decoding the standard base64 encoding of any byte sequence
recovers exactly that sequence. -/
theorem b64Decode_b64Encode : ∀ (l : List Nat), (∀ b ∈ l, b < 256) →
    b64Decode (b64Encode l) = some l
  | [], _ => rfl
  | [a], h => by
    have ha : a < 256 := h a (by simp)
    have h1 : a / 4 < 64 := by omega
    have h2 : a % 4 * 16 < 64 := by omega
    simp [b64Encode, b64Decode, b64DecodeLast,
      b64Idx_b64Char _ h1, b64Idx_b64Char _ h2]
    omega
  | [a, b], h => by
    have ha : a < 256 := h a (by simp)
    have hb : b < 256 := h b (by simp)
    have h1 : a / 4 < 64 := by omega
    have h2 : a % 4 * 16 + b / 16 < 64 := by omega
    have h3 : b % 16 * 4 < 64 := by omega
    simp [b64Encode, b64Decode, b64DecodeLast, b64Idx_b64Char _ h1,
      b64Idx_b64Char _ h2, b64Idx_b64Char _ h3, b64Char_ne_pad _ h3]
    omega
  | [a, b, c], h => by
    have ha : a < 256 := h a (by simp)
    have hb : b < 256 := h b (by simp)
    have hc : c < 256 := h c (by simp)
    have h1 : a / 4 < 64 := by omega
    have h2 : a % 4 * 16 + b / 16 < 64 := by omega
    have h3 : b % 16 * 4 + c / 64 < 64 := by omega
    have h4 : c % 64 < 64 := by omega
    simp [b64Encode, b64Decode, b64DecodeLast, b64Idx_b64Char _ h1,
      b64Idx_b64Char _ h2, b64Idx_b64Char _ h3, b64Idx_b64Char _ h4,
      b64Char_ne_pad _ h3, b64Char_ne_pad _ h4]
    omega
  | a :: b :: c :: d :: rest, h => by
    have ha : a < 256 := h a (by simp)
    have hb : b < 256 := h b (by simp)
    have hc : c < 256 := h c (by simp)
    have ih := b64Decode_b64Encode (d :: rest)
      (fun x hx => h x (by simp at hx ⊢; tauto))
    have h1 : a / 4 < 64 := by omega
    have h2 : a % 4 * 16 + b / 16 < 64 := by omega
    have h3 : b % 16 * 4 + c / 64 < 64 := by omega
    have h4 : c % 64 < 64 := by omega
    simp [b64Encode, b64Decode, b64Encode_cons_isEmpty, b64Idx_b64Char _ h1,
      b64Idx_b64Char _ h2, b64Idx_b64Char _ h3, b64Idx_b64Char _ h4, ih]
    omega

/-! ## ImageInput (inputs.rs lines 478-541) -/

/-- Modelled from the spec: `hes_engine::flavor::ImageData` is external to
`src/`; its two mutually exclusive variants — a bundled-file reference and
inline bytes plus MIME string — follow spec §3 "ImageValue" and the
constructor usage at inputs.rs lines 494, 497 and 518-521, with `u8` bytes as
`Nat` values below 256. -/
inductive ImageData where
  | file (fname : String)
  | data (bytes : List Nat) (mime : String)
  deriving Repr, DecidableEq

/-- Modelled from the spec: `hes_engine::flavor::Image` is external to `src/`;
this module touches only its `data` field (inputs.rs line 518). -/
structure Image where
  data : ImageData
  deriving Repr, DecidableEq

/-- Whether an image value is in the inline-data variant. -/
def isInlineData : ImageData → Bool
  | .data _ _ => true
  | .file _ => false

/-- Mount of `ImageInput` (lines 482-489): same local-mirror pattern as the
composite map inputs. -/
def imageInputMount (init : Image) : CompositeState Image :=
  compositeMount init

/-- The `image_src` closure (lines 493-501): a public path for a file
reference, or a `data:` URI with base64-encoded bytes for inline data. -/
def imageSrc : ImageData → String
  | .file fname => "/public/images/" ++ fname
  | .data bytes mime =>
    "data:" ++ mime ++ ";charset=utf-8;base64," ++ String.mk (b64Encode bytes)

/-- One `on:input` event of the file picker (lines 510-524): with a selected
file of content `bytes` and declared type `mime`, the async read completes and
`update!(|image| ..)` stores the inline-data variant in the mirror signal;
with an empty file list (`files.get(0)` is `None`) nothing happens. -/
inductive ImageEvent where
  | fileSelect (bytes : List Nat) (mime : String)
  | emptySelect
  deriving Repr, DecidableEq

def imageInputStep : ImageEvent → CompositeState Image → CompositeState Image
  | .fileSelect bytes mime, st =>
    compositeEdit (fun img => { img with data := ImageData.data bytes mime }) st
  | .emptySelect, st => st

def imageInputRun (evs : List ImageEvent) (st : CompositeState Image) :
    CompositeState Image :=
  evs.foldl (fun s e => imageInputStep e s) st

/-- Claim C7: selecting a file with byte content `B` and declared MIME type
`M` produces the inline-data image value with exactly those bytes and that
MIME string (locally and through the outer binding), and the rendered source
for an inline-data value is a `data:` URI whose base64 payload decodes back to
exactly `B`. -/
theorem imageInput_fileSelect_roundtrip (B : List Nat) (M : String)
    (st : CompositeState Image) (h : ∀ b ∈ B, b < 256) :
    (imageInputStep (ImageEvent.fileSelect B M) st).localVal.data
        = ImageData.data B M ∧
    (imageInputStep (ImageEvent.fileSelect B M) st).outer.data
        = ImageData.data B M ∧
    imageSrc (ImageData.data B M)
        = "data:" ++ M ++ ";charset=utf-8;base64," ++ String.mk (b64Encode B) ∧
    b64Decode (b64Encode B) = some B := by
  exact ⟨rfl, rfl, rfl, b64Decode_b64Encode B h⟩

/-- Concrete instance of `imageInput_fileSelect_roundtrip`: selecting a file
with bytes [7, 200, 33, 90, 255] and MIME "image/png" stores exactly those
bytes and that MIME, and the base64 payload of the rendered data URI decodes
back to them. -/
theorem imageInput_fileSelect_roundtrip_witness :
    (imageInputStep (ImageEvent.fileSelect [7, 200, 33, 90, 255] "image/png")
        (imageInputMount ⟨ImageData.file "a.png"⟩)).localVal.data
      = ImageData.data [7, 200, 33, 90, 255] "image/png" ∧
    (imageInputStep (ImageEvent.fileSelect [7, 200, 33, 90, 255] "image/png")
        (imageInputMount ⟨ImageData.file "a.png"⟩)).outer.data
      = ImageData.data [7, 200, 33, 90, 255] "image/png" ∧
    imageSrc (ImageData.data [7, 200, 33, 90, 255] "image/png")
      = "data:" ++ "image/png" ++ ";charset=utf-8;base64,"
          ++ String.mk (b64Encode [7, 200, 33, 90, 255]) ∧
    b64Decode (b64Encode [7, 200, 33, 90, 255]) = some [7, 200, 33, 90, 255] :=
  imageInput_fileSelect_roundtrip [7, 200, 33, 90, 255] "image/png"
    (imageInputMount ⟨ImageData.file "a.png"⟩) (by decide)

/-- Claim C9: each file selection stores the inline-data variant with exactly
one push through the outer binding; once the mirror holds the inline-data
variant no sequence of widget events ever returns it to the file-reference
variant (no event of the widget produces a file reference). -/
theorem imageInput_inline_irreversible :
    (∀ (st : CompositeState Image) (B : List Nat) (M : String),
      isInlineData
        (imageInputStep (ImageEvent.fileSelect B M) st).localVal.data = true ∧
      (imageInputStep (ImageEvent.fileSelect B M) st).outerWrites
        = st.outerWrites
            ++ [(imageInputStep (ImageEvent.fileSelect B M) st).localVal]) ∧
    (∀ (ev : ImageEvent) (st : CompositeState Image),
      isInlineData st.localVal.data = true →
      isInlineData (imageInputStep ev st).localVal.data = true) ∧
    (∀ (evs : List ImageEvent) (st : CompositeState Image),
      isInlineData st.localVal.data = true →
      isInlineData (imageInputRun evs st).localVal.data = true) := by
  have hstep : ∀ (ev : ImageEvent) (st : CompositeState Image),
      isInlineData st.localVal.data = true →
      isInlineData (imageInputStep ev st).localVal.data = true := by
    intro ev st hst
    cases ev with
    | fileSelect B M => rfl
    | emptySelect => exact hst
  refine ⟨?_, hstep, ?_⟩
  · intro st B M
    exact ⟨rfl, rfl⟩
  · intro evs
    induction evs with
    | nil => intro st hst; exact hst
    | cons e es ih =>
      intro st hst
      exact ih _ (hstep e st hst)

/-- Concrete instance of `imageInput_inline_irreversible`: after a first file
selection, a further empty selection and a second file selection leave the
mirror in the inline-data variant. -/
theorem imageInput_inline_irreversible_witness :
    isInlineData
      (imageInputRun [ImageEvent.emptySelect, ImageEvent.fileSelect [1] "image/gif"]
        (imageInputStep (ImageEvent.fileSelect [0] "image/png")
          (imageInputMount ⟨ImageData.file "a.png"⟩))).localVal.data = true :=
  imageInput_inline_irreversible.2.2
    [ImageEvent.emptySelect, ImageEvent.fileSelect [1] "image/gif"]
    (imageInputStep (ImageEvent.fileSelect [0] "image/png")
      (imageInputMount ⟨ImageData.file "a.png"⟩))
    (by decide)

/-- Claim C10: mounting any of the five composite map inputs or `ImageInput`
runs the synchronization effect once, invoking the outer binding's setter
exactly once with precisely the value read from the binding at mount, before
any user interaction. -/
theorem composite_mount_writes_once :
    (∀ init : ResourceMap, (resourceMapInputMount init).outerWrites = [init]) ∧
    (∀ init : ByproductMap, (byproductMapInputMount init).outerWrites = [init]) ∧
    (∀ init : OutputMap, (outputMapInputMount init).outerWrites = [init]) ∧
    (∀ init : FeedstockMap, (feedstockMapInputMount init).outerWrites = [init]) ∧
    (∀ init : List Rat, (multiNumericInputMount init).outerWrites = [init]) ∧
    (∀ init : Image, (imageInputMount init).outerWrites = [init]) :=
  ⟨fun _ => rfl, fun _ => rfl, fun _ => rfl, fun _ => rfl, fun _ => rfl,
   fun _ => rfl⟩

/-! ## MultiEnumInput (inputs.rs lines 411-476) -/

/-- The `on:click` handler of one variant element (lines 445-453): read the
current selection; if the clicked variant is present, `retain(|v| v != &var)`
removes every occurrence; otherwise `push(var)` appends it at the end; the
result is written through the binding. -/
def multiEnumClick {E : Type} [DecidableEq E] (cur : List E) (var : E) :
    List E :=
  if var ∈ cur then cur.filter (fun v => v ≠ var) else cur ++ [var]

/-- A sequence of clicks, each acting on the list written by the previous
one. -/
def multiEnumClicks {E : Type} [DecidableEq E] (cur : List E)
    (vars : List E) : List E :=
  vars.foldl multiEnumClick cur

theorem multiEnumClick_count_le {E : Type} [DecidableEq E] (l : List E)
    (v : E) (h : ∀ x, l.count x ≤ 1) : ∀ x, (multiEnumClick l v).count x ≤ 1 := by
  intro x
  unfold multiEnumClick
  by_cases hv : v ∈ l
  · simp only [hv, if_true]
    exact le_trans ((List.filter_sublist l).count_le x) (h x)
  · simp only [hv, if_false]
    rw [List.count_append]
    by_cases hx : x = v
    · subst hx
      have : l.count x = 0 := List.count_eq_zero.mpr hv
      simp [this]
    · have hxv : List.count x [v] = 0 :=
        List.count_eq_zero.mpr (by simp [hx])
      have hl := h x
      omega

/-- Claim C6: clicking an unselected variant appends it at the end of the
bound list; clicking a selected variant removes every occurrence of it (by
value equality); consequently, from any list containing each variant at most
once, any sequence of clicks leaves a list containing each variant at most
once. -/
theorem multiEnumInput_toggle {E : Type} [DecidableEq E] :
    (∀ (l : List E) (v : E), v ∉ l → multiEnumClick l v = l ++ [v]) ∧
    (∀ (l : List E) (v : E), v ∈ l →
      multiEnumClick l v = l.filter (fun x => x ≠ v)) ∧
    (∀ (l vs : List E), (∀ x, l.count x ≤ 1) →
      ∀ x, (multiEnumClicks l vs).count x ≤ 1) := by
  refine ⟨?_, ?_, ?_⟩
  · intro l v hv
    simp [multiEnumClick, hv]
  · intro l v hv
    simp [multiEnumClick, hv]
  · intro l vs
    induction vs generalizing l with
    | nil => intro h x; exact h x
    | cons v vs ih =>
      intro h x
      exact ih (multiEnumClick l v) (multiEnumClick_count_le l v h) x

/-- Concrete instance of `multiEnumInput_toggle` on lists of naturals standing
for variants: clicking 3 on [1, 2] appends it, clicking 2 on [1, 2, 3] removes
it, and the click sequence [3, 2, 3] starting from [1, 2] keeps every count at
most one. -/
theorem multiEnumInput_toggle_witness :
    ((3 : Nat) ∉ [1, 2] ∧ multiEnumClick [1, 2] 3 = [1, 2] ++ [3]) ∧
    ((2 : Nat) ∈ [1, 2, 3] ∧
      multiEnumClick [1, 2, 3] 2 = List.filter (fun x => x ≠ 2) [1, 2, 3]) ∧
    (multiEnumClicks [1, 2] [3, 2, 3]).count 3 ≤ 1 :=
  ⟨⟨by decide, multiEnumInput_toggle.1 [1, 2] 3 (by decide)⟩,
   ⟨by decide, multiEnumInput_toggle.2.1 [1, 2, 3] 2 (by decide)⟩,
   multiEnumInput_toggle.2.2 [1, 2] [3, 2, 3]
     (fun x => List.nodup_iff_count_le_one.mp (by decide) x) 3⟩

/-! ## EnumInput (inputs.rs lines 358-405)

The select options are generated from `E::iter()` with each option's `value`
attribute set to the variant's `&'static str` label (lines 379-389), so
`variants` and `toLabel` parameterise both the rendered option values and the
handler.  The `on:change` handler (lines 395-398) parses the selected option
value and `unwrap()`s the result: a parse failure is a panic. -/

structure EnumState (E : Type) where
  bound : E
  writes : List E
  panicked : Bool
  deriving Repr, DecidableEq

/-- The option values rendered by `E::iter().map(|var| var.into())`. -/
def enumOptionLabels {E : Type} (variants : List E) (toLabel : E → String) :
    List String :=
  variants.map toLabel

/-- The `on:change` handler (lines 395-398): parse the selected value; on
success write the variant through the binding, on failure `unwrap()` panics. -/
def enumInputOnChange {E : Type} (parseE : String → Option E)
    (st : EnumState E) (s : String) : EnumState E :=
  match parseE s with
  | some v => { bound := v, writes := st.writes ++ [v], panicked := st.panicked }
  | none => { st with panicked := true }

/-- Claim C8: if the variant labels round-trip (parsing each variant's label
yields that variant), then a change event carrying any option value generated
from the enumeration writes the corresponding variant through the binding, and
the panic branch of the handler is unreachable (the panic flag is never
raised). -/
theorem enumInput_roundtrip_no_panic {E : Type} (variants : List E)
    (toLabel : E → String) (parseE : String → Option E)
    (hrt : ∀ v, parseE (toLabel v) = some v) :
    ∀ (st : EnumState E) (s : String), s ∈ enumOptionLabels variants toLabel →
      ∃ v, v ∈ variants ∧ toLabel v = s ∧
        enumInputOnChange parseE st s
          = { bound := v, writes := st.writes ++ [v],
              panicked := st.panicked } := by
  intro st s hs
  rcases List.mem_map.mp hs with ⟨v, hv, hlab⟩
  refine ⟨v, hv, hlab, ?_⟩
  rw [← hlab]
  simp [enumInputOnChange, hrt v]

/-- A sample two-variant enumeration with round-tripping labels, standing in
for one admissible `E` in the witness below. -/
inductive DemoVariant where
  | alpha
  | beta
  deriving Repr, DecidableEq

def demoLabel : DemoVariant → String
  | .alpha => "Alpha"
  | .beta => "Beta"

def demoParse (s : String) : Option DemoVariant :=
  if s = "Alpha" then some DemoVariant.alpha
  else if s = "Beta" then some DemoVariant.beta
  else none

/-- Concrete instance of `enumInput_roundtrip_no_panic`: a change event with
the generated label "Beta" writes `beta` and does not panic. -/
theorem enumInput_roundtrip_no_panic_witness :
    ∃ v, v ∈ [DemoVariant.alpha, DemoVariant.beta] ∧ demoLabel v = "Beta" ∧
      enumInputOnChange demoParse
          { bound := DemoVariant.alpha, writes := [], panicked := false }
          "Beta"
        = { bound := v, writes := [] ++ [v], panicked := false } :=
  enumInput_roundtrip_no_panic [DemoVariant.alpha, DemoVariant.beta]
    demoLabel demoParse (fun v => by cases v <;> rfl)
    { bound := DemoVariant.alpha, writes := [], panicked := false }
    "Beta" (by simp [enumOptionLabels, demoLabel])
